import Mathlib

/-!
Shallow embedding of `jsonprinter.py` (measured-build-scripts).

The script manages an OpenEmbedded build directory: it decodes a JSON
manifest into `Repo` objects (`repo_decode`), encodes `Repo` objects back
to JSON dictionaries (`RepoEncoder.default`), clones repositories
(`Repo.clone` / `RepoFetcher.clone`), writes a `bblayers.conf` file
(`BBLayerSerializer.write`, guarded against overwrite in `setup`), and
re-derives a manifest from a workspace by querying git (`manifest`).

JSON values that can appear as field values in a manifest object are
modelled by `JValue`; a JSON object (Python dict) is an association list
`JObj`.  Field access follows Python: `d[k]` raises `KeyError` when the
key is absent (modelled as `Option.none` propagation) and `d.get(k, v)`
returns the stored value — including a stored `null`/`None` — falling
back to `v` only when the key is absent.  The decoder is modelled on
string-typed fields (name/url/branch/revision strings, layers a string
array or null), which is the domain every claim quantifies over.

External effects (filesystem existence checks, `subprocess` calls) are
modelled as explicit environments of pure oracle functions, and the
functions that perform them return the trace of actions / results they
would produce.
-/

set_option autoImplicit false

deriving instance DecidableEq for Except

/-- A JSON value occurring as a manifest object field: a string, an array
of strings (the `layers` list), or `null`. -/
inductive JValue where
  | str : String → JValue
  | arr : List String → JValue
  | null : JValue
deriving DecidableEq, Repr

/-- A JSON object / Python dict with `JValue` fields. -/
abbrev JObj := List (String × JValue)

/-- Look up key `k`: `Option.some` of the first stored value, `Option.none`
when absent (Python `d[k]` raising `KeyError`). -/
def JObj.get (o : JObj) (k : String) : Option JValue :=
  (o.find? (fun p => p.1 == k)).map (fun p => p.2)

/-- Python `d.get(k, v)`: the stored value when the key is present (even if
that value is `null`), else the default `v`. -/
def JObj.getD (o : JObj) (k : String) (v : JValue) : JValue :=
  (JObj.get o k).getD v

/-- The `Repo` class: data required to clone a git repo in a specific
state.  `layers` is `Option.none` when the Python attribute is `None`
("this repo contributes no layers"). -/
structure Repo where
  name : String
  url : String
  branch : String
  revision : String
  layers : Option (List String)
deriving DecidableEq, Repr

/-- `Repo.__init__` called with only `name` and `url`, taking every
default: `branch="master"`, `revision="head"`, `layers=["./"]`. -/
def Repo.init (name url : String) : Repo :=
  ⟨name, url, "master", "head", some ["./"]⟩

/-- `RepoEncoder.default`: encode a `Repo` into a dict.  Always stores
`name` and `url`; stores `branch` only when it differs from `"master"`;
stores `layers = null` when the attribute is `None`; stores the list when
`len(layers) > 1 or layers[0] != "./"`; otherwise omits `layers`.
`revision` is never stored.  The Python expression `layers[0]` raises
`IndexError` when `layers == []` (short-circuit: only evaluated when
`len(layers) > 1` is false); that crash is modelled as `Option.none`. -/
def RepoEncoder.default (r : Repo) : Option JObj :=
  let d0 : JObj := [("name", JValue.str r.name), ("url", JValue.str r.url)]
  let d1 : JObj := if r.branch == "master" then d0 else d0 ++ [("branch", JValue.str r.branch)]
  match r.layers with
  | none => some (d1 ++ [("layers", JValue.null)])
  | some ls =>
    if 1 < ls.length then some (d1 ++ [("layers", JValue.arr ls)])
    else
      match ls with
      | [] => none
      | l0 :: _ => if l0 == "./" then some d1 else some (d1 ++ [("layers", JValue.arr ls)])

/-- Read a `JValue` as the string the decoder stores in a string field. -/
def JValue.asString : JValue → Option String
  | .str s => some s
  | _ => none

/-- Read a `JValue` as the `layers` field: `null` is "no layers", an array
is the ordered layer list. -/
def JValue.asLayers : JValue → Option (Option (List String))
  | .null => some none
  | .arr ls => some (some ls)
  | .str _ => none

/-- `repo_decode`: build a `Repo` from a dict.  `json_obj["name"]` and
`json_obj["url"]` raise `KeyError` when absent; `branch`, `revision` and
`layers` use `d.get` with defaults `"master"`, `"HEAD"` and `["./"]`, so a
stored `null` for `layers` is preserved as "no layers". -/
def repo_decode (o : JObj) : Option Repo := do
  let nameV ← JObj.get o "name"
  let urlV ← JObj.get o "url"
  let name ← JValue.asString nameV
  let url ← JValue.asString urlV
  let branch ← JValue.asString (JObj.getD o "branch" (JValue.str "master"))
  let revision ← JValue.asString (JObj.getD o "revision" (JValue.str "HEAD"))
  let layers ← JValue.asLayers (JObj.getD o "layers" (JValue.arr ["./"]))
  pure ⟨name, url, branch, revision, layers⟩

/-- Decoding a manifest array: `JSONDecoder(object_hook=repo_decode)`
applies `repo_decode` to each object of the array in order. -/
def repos_decode : List JObj → Option (List Repo)
  | [] => some []
  | o :: os => do
    let r ← repo_decode o
    let rs ← repos_decode os
    pure (r :: rs)

/-- The `RepoFetcher` class: a base directory plus the ordered list of
`Repo` objects it operates on. -/
structure RepoFetcher where
  base : String
  repos : List Repo
deriving DecidableEq, Repr

/-- `RepoFetcher.add_repo`: `self._repos.append(repo)` — an unconditional
append, with no check of any kind on the new repo's name. -/
def RepoFetcher.add_repo (f : RepoFetcher) (r : Repo) : RepoFetcher :=
  ⟨f.base, f.repos ++ [r]⟩

/-- Environment of external effects used while cloning: `os.path.exists`
and the exit status `subprocess.call(["git", "clone", "--progress", url,
dest])` would return. -/
structure CloneEnv where
  pathExists : String → Bool
  gitClone : String → String → Int

/-- What `Repo.clone` did for one repo: either it invoked the external
`git clone` with a url and destination (recording the returned status), or
the destination already existed and it returned 1 without invoking
anything. -/
inductive CloneAction where
  | invoked (url dest : String) (status : Int)
  | skipped (dest : String)
deriving DecidableEq, Repr

/-- `Repo.clone(path)`: `dest = path + "/" + name`; when `dest` does not
exist, invoke `git clone url dest` and return its status; otherwise return
1 without invoking anything. -/
def Repo.clone (env : CloneEnv) (path : String) (r : Repo) : CloneAction :=
  let dest := path ++ "/" ++ r.name
  if env.pathExists dest then CloneAction.skipped dest
  else CloneAction.invoked r.url dest (env.gitClone r.url dest)

/-- The loop body of `RepoFetcher.clone`: call `repo.clone(base)` on each
repo in list order, ignoring each result and always moving on to the
next. -/
def cloneLoop (env : CloneEnv) (base : String) : List Repo → List CloneAction
  | [] => []
  | r :: rs => Repo.clone env base r :: cloneLoop env base rs

/-- `RepoFetcher.clone`: loop over `self._repos` invoking `clone` on each
with `self._base`. -/
def RepoFetcher.clone (env : CloneEnv) (f : RepoFetcher) : List CloneAction :=
  cloneLoop env f.base f.repos

/-- One generated layer line of `bblayers.conf`:
`    $\x7bTOPDIR\x7d/<base>/<name>/<layer> \` and a newline. -/
def layerLine (base name layer : String) : String :=
  "    ${TOPDIR}/" ++ base ++ "/" ++ name ++ "/" ++ layer ++ " \\\n"

/-- The inner loop of `BBLayerSerializer.write`: one line per layer of one
repo, in list order. -/
def layerLoop (base name : String) : List String → String
  | [] => ""
  | l :: ls => layerLine base name l ++ layerLoop base name ls

/-- The outer loop of `BBLayerSerializer.write`: repos in list order,
skipping the layer loop entirely when `repo._layers is None`. -/
def repoLayerLoop (base : String) : List Repo → String
  | [] => ""
  | r :: rs =>
    (match r.layers with
     | none => ""
     | some ls => layerLoop base r.name ls) ++ repoLayerLoop base rs

/-- The three fixed lines written before the layer lines. -/
def bblayersHeader : String :=
  "LCONF_VERSION ?= \"5\"\n" ++ "BBPATH ?= \"${TOPDIR}\"\n" ++ "BBLAYERS ?= \" \\\n"

/-- `BBLayerSerializer.write`: the full text written to the file object —
header, the nested repo/layer loops, closing quote. -/
def BBLayerSerializer.write (base : String) (repos : List Repo) : String :=
  bblayersHeader ++ repoLayerLoop base repos ++ "\"\n"

/-- A filesystem of text files as an association list from path to
content; a write shadows any earlier entry for the same path. -/
abbrev FS := List (String × String)

/-- `os.path.exists` on the modelled filesystem. -/
def FS.pathExists (fs : FS) (p : String) : Bool :=
  fs.any (fun e => e.1 == p)

/-- Content of the file at `p`, if present. -/
def FS.read (fs : FS) (p : String) : Option String :=
  (fs.find? (fun e => e.1 == p)).map (fun e => e.2)

/-- `open(p, "w")` followed by writing `c`. -/
def FS.writeFile (fs : FS) (p c : String) : FS :=
  (p, c) :: fs

/-- The `bblayers.conf` creation step of `setup`: raise
`ValueError(bblayers_file + " already exists")` when the file exists,
otherwise write `BBLayerSerializer.write` output to it. -/
def setup_write_bblayers (fs : FS) (file base : String) (repos : List Repo) :
    Except String FS :=
  if FS.pathExists fs file then Except.error (file ++ " already exists")
  else Except.ok (FS.writeFile fs file (BBLayerSerializer.write base repos))

/-- Environment of external effects used by `manifest`: `os.path.isdir`
and `subprocess.check_output` (which raises `CalledProcessError`, modelled
as `Except.error`, when the command fails).  The script never changes
directory and never passes the repo path to git, so the command list alone
determines the result. -/
structure GitEnv where
  isDir : String → Bool
  checkOutput : List String → Except String String

/-- Python `str.rstrip()`: drop trailing whitespace. -/
def rstrip (s : String) : String :=
  String.mk ((s.data.reverse.dropWhile fun c => c.isWhitespace).reverse)

/-- Characters before the first `/`. -/
def untilSlash : List Char → List Char
  | [] => []
  | a :: rest => if a == '/' then [] else a :: untilSlash rest

/-- Python `s.split("/")[0]`: the first `/`-separated field of `s` (the
whole of `s` when it contains no `/`; empty when `s` starts with `/` or is
empty — exactly what indexing the split list at 0 yields). -/
def splitSlashHead (s : String) : String :=
  String.mk (untilSlash s.data)

/-- The scan loop of `manifest` over the entries of `os.listdir(src_dir)`:
for each item, when `src_dir/item/.git` is a directory, query git for
revision, branch, upstream remote and url (each query's failure
propagates, aborting the loop) and add `Repo(item, url, branch=branch,
revision=rev)`; otherwise record the "Not a git repo" message and
continue.  Returns the repos added and the skip messages printed, each in
loop order. -/
def manifest_scan (env : GitEnv) (src_dir : String) :
    List String → Except String (List Repo × List String)
  | [] => Except.ok ([], [])
  | item :: rest => do
    let repo_root := src_dir ++ "/" ++ item
    let git_dir := repo_root ++ "/.git"
    if env.isDir git_dir then do
      let revOut ← env.checkOutput ["git", "rev-parse", "HEAD"]
      let rev := rstrip revOut
      let branchOut ← env.checkOutput ["git", "rev-parse", "--abbrev-ref", "HEAD"]
      let branch := rstrip branchOut
      let remoteOut ← env.checkOutput
        ["git", "rev-parse", "--abbrev-ref", "--symbolic-full-name", "@{u}"]
      let remote := rstrip (splitSlashHead remoteOut)
      let urlOut ← env.checkOutput ["git", "config", "--get", "remote." ++ remote ++ ".url"]
      let url := rstrip urlOut
      let pr ← manifest_scan env src_dir rest
      Except.ok (⟨item, url, branch, rev, some ["./"]⟩ :: pr.1, pr.2)
    else do
      let pr ← manifest_scan env src_dir rest
      Except.ok (pr.1, ("Not a git repo, skipping: " ++ git_dir) :: pr.2)

/-- Concatenation of a list of text lines into one string. -/
def concatLines : List String → String
  | [] => ""
  | s :: ss => s ++ concatLines ss

/-- Modelled from the spec: the generated path lines in the order §4.4
prescribes — outer loop over members in insertion order, inner loop over
that member's layers in list order, one line per layer, a member with
`layers` none contributing no lines.  Stated from the spec's words to be
compared with the source translation `BBLayerSerializer.write`. -/
def specLayerLines (base : String) (repos : List Repo) : List String :=
  (repos.map (fun r => (r.layers.getD []).map (fun l => layerLine base r.name l))).flatten

/-- A manifest object carrying an explicit non-default revision. -/
def c1x_obj : JObj :=
  [("name", JValue.str "meta-foo"), ("url", JValue.str "git://example/meta-foo"),
   ("revision", JValue.str "abc123")]

/-- The `Repo` that decoding `c1x_obj` produces. -/
def c1x_repo : Repo :=
  ⟨"meta-foo", "git://example/meta-foo", "master", "abc123", some ["./"]⟩

/-- A manifest object with explicit branch, default revision and null layers. -/
def c1w_obj : JObj :=
  [("name", JValue.str "meta-a"), ("url", JValue.str "git://a"),
   ("branch", JValue.str "dev"), ("revision", JValue.str "HEAD"), ("layers", JValue.null)]

/-- The `Repo` that decoding `c1w_obj` produces. -/
def c1w_repo : Repo := ⟨"meta-a", "git://a", "dev", "HEAD", none⟩

/-- The dict that encoding `c1w_repo` produces. -/
def c1w_enc : JObj :=
  [("name", JValue.str "meta-a"), ("url", JValue.str "git://a"),
   ("branch", JValue.str "dev"), ("layers", JValue.null)]

/-- A `Repo` with non-default branch and a two-element layer list. -/
def c2w_repo : Repo := ⟨"meta-b", "git://b", "dev", "head", some ["a/", "b/"]⟩

/-- The dict that encoding `c2w_repo` produces. -/
def c2w_enc : JObj :=
  [("name", JValue.str "meta-b"), ("url", JValue.str "git://b"),
   ("branch", JValue.str "dev"), ("layers", JValue.arr ["a/", "b/"])]

/-- A manifest object with an explicit two-element layer list. -/
def c3w_obj : JObj :=
  [("name", JValue.str "n"), ("url", JValue.str "u"), ("layers", JValue.arr ["a", "b"])]

/-- The `Repo` that decoding `c3w_obj` produces. -/
def c3w_repo : Repo := ⟨"n", "u", "master", "HEAD", some ["a", "b"]⟩

/-- A clone environment in which only `source/meta-a` already exists and
every external clone returns status 0. -/
def c4w_env : CloneEnv := ⟨fun p => p == "source/meta-a", fun _ _ => 0⟩

/-- A fetcher holding two repos, the first of which already has a
checkout directory in `c4w_env`. -/
def c4w_fetcher : RepoFetcher :=
  ⟨"source", [⟨"meta-a", "git://a", "master", "head", some ["./"]⟩,
              ⟨"meta-b", "git://b", "master", "head", some ["./"]⟩]⟩

/-- The output path of the generated config in the C5 scenario. -/
def c5w_file : String := "conf/bblayers.conf"

/-- The filesystem after the first successful `setup` write. -/
def c5w_fs : FS := [(c5w_file, BBLayerSerializer.write "source" [])]

/-- A git environment where `src/a/.git` is a directory but every git
query fails. -/
def c6x_env : GitEnv :=
  ⟨fun p => p == "src/a/.git", fun _ => Except.error "git: query failed"⟩

/-- A git environment where only `src/g/.git` is a directory and the
`rev-parse HEAD` query fails while every other command succeeds. -/
def c6w_env : GitEnv :=
  ⟨fun p => p == "src/g/.git",
   fun c => if c = ["git", "rev-parse", "HEAD"] then Except.error "boom" else Except.ok "x"⟩

/-- A git environment where only `src/g/.git` is a directory, the
revision query succeeds, and the branch query fails — a detached-HEAD
checkout. -/
def c6w_env2 : GitEnv :=
  ⟨fun p => p == "src/g/.git",
   fun c =>
     if c = ["git", "rev-parse", "HEAD"] then Except.ok "abc123\n"
     else if c = ["git", "rev-parse", "--abbrev-ref", "HEAD"] then Except.error "detached"
     else Except.ok "x"⟩

/-- A git environment where only `src/g/.git` is a directory, the first
three queries succeed with upstream `origin/master`, and the remote-url
query fails. -/
def c6w_env3 : GitEnv :=
  ⟨fun p => p == "src/g/.git",
   fun c =>
     if c = ["git", "rev-parse", "--abbrev-ref", "--symbolic-full-name", "@{u}"] then
       Except.ok "origin/master\n"
     else if c = ["git", "config", "--get", "remote.origin.url"] then Except.error "no url"
     else Except.ok "x\n"⟩

/-- A repo named `meta-a`. -/
def c8x_repo : Repo := ⟨"meta-a", "git://a", "master", "head", some ["./"]⟩

/-- A fetcher already holding a member named `meta-a`. -/
def c8x_fetcher : RepoFetcher := ⟨"source", [c8x_repo]⟩

example :
    repo_decode [("name", JValue.str "meta-foo"), ("url", JValue.str "u")] =
      some ⟨"meta-foo", "u", "master", "HEAD", some ["./"]⟩ := by decide

example :
    RepoEncoder.default ⟨"meta-foo", "u", "master", "abc", some ["./"]⟩ =
      some [("name", JValue.str "meta-foo"), ("url", JValue.str "u")] := by decide

example : RepoEncoder.default ⟨"n", "u", "dev", "HEAD", some []⟩ = none := by decide

example :
    RepoEncoder.default ⟨"n", "u", "dev", "HEAD", none⟩ =
      some [("name", JValue.str "n"), ("url", JValue.str "u"),
            ("branch", JValue.str "dev"), ("layers", JValue.null)] := by decide

example :
    manifest_scan ⟨fun _ => false, fun _ => Except.ok "x"⟩ "src" ["a"] =
      Except.ok ([], ["Not a git repo, skipping: src/a/.git"]) := by decide

example :
    manifest_scan
      ⟨fun _ => true,
       fun c => if c = ["git", "rev-parse", "--abbrev-ref", "--symbolic-full-name", "@{u}"]
                then Except.ok "origin/master\n"
                else if c = ["git", "config", "--get", "remote.origin.url"]
                then Except.ok "git://example\n"
                else Except.ok "x\n"⟩ "src" ["a"] =
      Except.ok ([⟨"a", "git://example", "x", "x", some ["./"]⟩], []) := by decide

/-! Helper lemmas shared by the claim theorems. -/

theorem JObj.get_nil (k : String) : JObj.get [] k = none := rfl

theorem JObj.get_cons (k' : String) (v : JValue) (o : JObj) (k : String) :
    JObj.get ((k', v) :: o) k = if k' == k then some v else JObj.get o k := by
  cases h : k' == k <;> simp [JObj.get, List.find?_cons, h]

theorem concatLines_append (l1 l2 : List String) :
    concatLines (l1 ++ l2) = concatLines l1 ++ concatLines l2 := by
  induction l1 with
  | nil => simp [concatLines]
  | cons s ss ih => simp [concatLines, ih, String.append_assoc]

theorem layerLoop_eq (base name : String) (ls : List String) :
    layerLoop base name ls = concatLines (ls.map (layerLine base name)) := by
  induction ls with
  | nil => rfl
  | cons l ls ih => simp [layerLoop, concatLines, ih]

theorem repoLayerLoop_eq (base : String) (repos : List Repo) :
    repoLayerLoop base repos = concatLines (specLayerLines base repos) := by
  induction repos with
  | nil => rfl
  | cons r rs ih =>
    cases h : r.layers with
    | none => simp [repoLayerLoop, specLayerLines, h, ih, concatLines_append]
    | some ls =>
      simp [repoLayerLoop, specLayerLines, h, ih, concatLines_append, layerLoop_eq]

/-- C7: `BBLayerSerializer.write` emits exactly one generated path line
`$\x7bTOPDIR\x7d/<base>/<name>/<layer>` per layer, outer loop over repos in
insertion order, inner loop over each repo's layers in list order, and a
repo whose layers attribute is `None` contributes no lines. -/
theorem C7_write_layer_lines (base : String) (repos : List Repo) :
    BBLayerSerializer.write base repos =
      bblayersHeader ++ concatLines (specLayerLines base repos) ++ "\"\n" ∧
    (specLayerLines base repos).length =
      (repos.map (fun r => (r.layers.getD []).length)).sum := by
  constructor
  · simp [BBLayerSerializer.write, repoLayerLoop_eq]
  · simp only [specLayerLines, List.length_flatten, List.map_map]
    refine congrArg List.sum ?_
    apply List.map_congr_left
    intro r _
    simp

/-- C8 counterexample: `add_repo` on a fetcher that already holds a member
named `meta-a` accepts another repo named `meta-a` without any failure,
leaving the member names duplicated. -/
theorem C8_counterexample :
    (RepoFetcher.add_repo c8x_fetcher c8x_repo).repos.map Repo.name = ["meta-a", "meta-a"] ∧
    ¬ ((RepoFetcher.add_repo c8x_fetcher c8x_repo).repos.map Repo.name).Nodup := by
  decide

/-- C8 (amended): `add_repo` appends the repo to the ordered member list
unconditionally; no duplicate-name check of any kind is performed. -/
theorem C8_add_repo_appends (f : RepoFetcher) (r : Repo) :
    (RepoFetcher.add_repo f r).repos = f.repos ++ [r] ∧
    (RepoFetcher.add_repo f r).base = f.base :=
  ⟨rfl, rfl⟩

/-- C9: a `Repo` constructed directly with every default has revision
`"head"`; decoding a manifest object with no revision field yields
revision `"HEAD"`; hence the two all-defaults objects differ. -/
theorem C9_default_revision_mismatch (n u : String) :
    (Repo.init n u).revision = "head" ∧
    repo_decode [("name", JValue.str n), ("url", JValue.str u)] =
      some ⟨n, u, "master", "HEAD", some ["./"]⟩ ∧
    Repo.init n u ≠ ⟨n, u, "master", "HEAD", some ["./"]⟩ := by
  refine ⟨rfl, ?_, ?_⟩
  · simp [repo_decode, JObj.get_cons, JObj.getD, JObj.get_nil, JValue.asString,
      JValue.asLayers]
  · intro h
    have h' := congrArg Repo.revision h
    simp [Repo.init] at h'

/-- C9 witness: the mismatch at a concrete name and url. -/
theorem C9_witness :
    (Repo.init "meta-x" "git://x").revision = "head" ∧
    repo_decode [("name", JValue.str "meta-x"), ("url", JValue.str "git://x")] =
      some ⟨"meta-x", "git://x", "master", "HEAD", some ["./"]⟩ ∧
    Repo.init "meta-x" "git://x" ≠ ⟨"meta-x", "git://x", "master", "HEAD", some ["./"]⟩ :=
  C9_default_revision_mismatch "meta-x" "git://x"

/-- C10: encoding fails (the Python `layers[0]` raises `IndexError`)
exactly when the layers attribute is the empty list; it produces a dict
for every repo whose layers attribute is `None` or a non-empty list. -/
theorem C10_encode_fails_iff_empty_layers (r : Repo) :
    RepoEncoder.default r = none ↔ r.layers = some ([] : List String) := by
  obtain ⟨n, u, b, rev, lay⟩ := r
  cases lay with
  | none => simp [RepoEncoder.default]
  | some ls =>
    cases ls with
    | nil => simp [RepoEncoder.default]
    | cons l0 rest =>
      simp only [RepoEncoder.default]
      constructor
      · intro h
        split at h
        · exact absurd h (by simp)
        · split at h
          · exact absurd h (by simp)
          · exact absurd h (by simp)
      · intro h
        exact absurd h (by simp)

/-- C10 witness: encoding evaluated on an empty layer list and on the two
total cases. -/
theorem C10_witness :
    (RepoEncoder.default ⟨"n", "u", "master", "head", some []⟩ = none ↔
      (⟨"n", "u", "master", "head", some []⟩ : Repo).layers = some ([] : List String)) :=
  C10_encode_fails_iff_empty_layers ⟨"n", "u", "master", "head", some []⟩

theorem cloneLoop_length (env : CloneEnv) (base : String) (rs : List Repo) :
    (cloneLoop env base rs).length = rs.length := by
  induction rs with
  | nil => rfl
  | cons r rs ih => simp [cloneLoop, ih]

theorem cloneLoop_getElem? (env : CloneEnv) (base : String) (rs : List Repo)
    (i : Nat) (r : Repo) (h : rs[i]? = some r) :
    (cloneLoop env base rs)[i]? = some (Repo.clone env base r) := by
  induction rs generalizing i with
  | nil => simp at h
  | cons r0 rs ih =>
    cases i with
    | zero =>
      simp at h
      subst h
      simp [cloneLoop]
    | succ n =>
      simp only [cloneLoop, List.getElem?_cons_succ] at h ⊢
      exact ih n h

/-- C4: `RepoFetcher.clone` produces one clone action per member, in
member order, regardless of any member's outcome; the action for a member
whose destination `base/name` already exists is a skip that invokes
nothing, and the action for a member whose destination does not exist
invokes the external clone with exactly that member's url and
destination. -/
theorem C4_cloneAll (env : CloneEnv) (f : RepoFetcher) :
    (RepoFetcher.clone env f).length = f.repos.length ∧
    ∀ (i : Nat) (r : Repo), f.repos[i]? = some r →
      (RepoFetcher.clone env f)[i]? =
        some (if env.pathExists (f.base ++ "/" ++ r.name)
              then CloneAction.skipped (f.base ++ "/" ++ r.name)
              else CloneAction.invoked r.url (f.base ++ "/" ++ r.name)
                (env.gitClone r.url (f.base ++ "/" ++ r.name))) := by
  refine ⟨cloneLoop_length env f.base f.repos, ?_⟩
  intro i r h
  exact cloneLoop_getElem? env f.base f.repos i r h

/-- C4 witness: with `source/meta-a` already present, the first member is
skipped and the second member's clone is still invoked. -/
theorem C4_witness :
    (RepoFetcher.clone c4w_env c4w_fetcher).length = 2 ∧
    (RepoFetcher.clone c4w_env c4w_fetcher)[0]? = some (CloneAction.skipped "source/meta-a") ∧
    (RepoFetcher.clone c4w_env c4w_fetcher)[1]? =
      some (CloneAction.invoked "git://b" "source/meta-b" 0) := by
  have h := C4_cloneAll c4w_env c4w_fetcher
  refine ⟨h.1, ?_, ?_⟩
  · have h0 := h.2 0 ⟨"meta-a", "git://a", "master", "head", some ["./"]⟩ (by decide)
    rw [h0]
    decide
  · have h1 := h.2 1 ⟨"meta-b", "git://b", "master", "head", some ["./"]⟩ (by decide)
    rw [h1]
    decide

/-- C5: when the `bblayers.conf` creation step of `setup` succeeds, a
second run against the same output path fails with the "already exists"
error, and the file still holds exactly the content the first run wrote. -/
theorem C5_bblayers_write_once (fs : FS) (file base : String)
    (repos repos2 : List Repo) (fs' : FS)
    (h : setup_write_bblayers fs file base repos = Except.ok fs') :
    setup_write_bblayers fs' file base repos2 = Except.error (file ++ " already exists") ∧
    FS.read fs' file = some (BBLayerSerializer.write base repos) := by
  unfold setup_write_bblayers at h
  by_cases hex : FS.pathExists fs file
  · simp [hex] at h
  · simp [hex] at h
    subst h
    constructor
    · simp [setup_write_bblayers, FS.pathExists, FS.writeFile]
    · simp [FS.read, FS.writeFile, List.find?]

/-- C5 witness: the write-once behavior at a concrete path and repo
list. -/
theorem C5_witness :
    setup_write_bblayers c5w_fs c5w_file "source" [] =
      Except.error (c5w_file ++ " already exists") ∧
    FS.read c5w_fs c5w_file = some (BBLayerSerializer.write "source" []) :=
  C5_bblayers_write_once [] c5w_file "source" [] [] c5w_fs (by decide)

/-- C6 counterexample: with `src/a` a git checkout whose queries fail and
`src/b` not a checkout, `manifest` aborts the whole scan with the query
failure — it produces no repo set at all, and the remaining subdirectory
`b` is never reached (scanning `["b"]` alone would have recorded a skip
message). -/
theorem C6_counterexample :
    manifest_scan c6x_env "src" ["a", "b"] = Except.error "git: query failed" ∧
    manifest_scan c6x_env "src" ["b"] =
      Except.ok ([], ["Not a git repo, skipping: src/b/.git"]) := by
  decide

/-- C6 (amended): a subdirectory without a `.git` directory is skipped
with a report and the scan continues over the rest; and for a checkout,
a failure of any of the four git queries — revision, branch, upstream
remote, or remote url, whichever is the first the scan reaches that
fails — aborts the entire scan with that error rather than excluding
only that checkout. -/
theorem C6_amended_scan :
    (∀ (env : GitEnv) (src_dir d : String) (rest : List String),
      env.isDir (src_dir ++ "/" ++ d ++ "/.git") = false →
      manifest_scan env src_dir (d :: rest) =
        (manifest_scan env src_dir rest).map
          (fun pr => (pr.1,
            ("Not a git repo, skipping: " ++ (src_dir ++ "/" ++ d ++ "/.git")) :: pr.2))) ∧
    (∀ (env : GitEnv) (src_dir g e : String) (rest : List String),
      env.isDir (src_dir ++ "/" ++ g ++ "/.git") = true →
      (env.checkOutput ["git", "rev-parse", "HEAD"] = Except.error e ∨
       (∃ o1, env.checkOutput ["git", "rev-parse", "HEAD"] = Except.ok o1 ∧
          env.checkOutput ["git", "rev-parse", "--abbrev-ref", "HEAD"] = Except.error e) ∨
       (∃ o1 o2, env.checkOutput ["git", "rev-parse", "HEAD"] = Except.ok o1 ∧
          env.checkOutput ["git", "rev-parse", "--abbrev-ref", "HEAD"] = Except.ok o2 ∧
          env.checkOutput ["git", "rev-parse", "--abbrev-ref", "--symbolic-full-name", "@{u}"] =
            Except.error e) ∨
       (∃ o1 o2 o3, env.checkOutput ["git", "rev-parse", "HEAD"] = Except.ok o1 ∧
          env.checkOutput ["git", "rev-parse", "--abbrev-ref", "HEAD"] = Except.ok o2 ∧
          env.checkOutput ["git", "rev-parse", "--abbrev-ref", "--symbolic-full-name", "@{u}"] =
            Except.ok o3 ∧
          env.checkOutput
            ["git", "config", "--get", "remote." ++ rstrip (splitSlashHead o3) ++ ".url"] =
            Except.error e)) →
      manifest_scan env src_dir (g :: rest) = Except.error e) := by
  constructor
  · intro env src_dir d rest hng
    rw [manifest_scan]
    simp only [hng]
    cases hx : manifest_scan env src_dir rest <;>
      simp [Except.map, Except.bind, Bind.bind, hx]
  · intro env src_dir g e rest hg hfail
    rw [manifest_scan]
    rcases hfail with h1 | ⟨o1, h1, h2⟩ | ⟨o1, o2, h1, h2, h3⟩ | ⟨o1, o2, o3, h1, h2, h3, h4⟩
    · simp [hg, h1, Except.bind, Bind.bind]
    · simp [hg, h1, h2, Except.bind, Bind.bind]
    · simp [hg, h1, h2, h3, Except.bind, Bind.bind]
    · simp [hg, h1, h2, h3, h4, Except.bind, Bind.bind]

/-- C6 witness: the amended behavior at concrete environments — a
non-git subdirectory yields a skip report and no error; a detached-HEAD
checkout (branch query fails) aborts the scan with that error; a checkout
whose remote-url query fails aborts the scan with that error. -/
theorem C6_witness :
    manifest_scan c6w_env "src" ["d"] =
      Except.ok ([], ["Not a git repo, skipping: src/d/.git"]) ∧
    manifest_scan c6w_env2 "src" ["g"] = Except.error "detached" ∧
    manifest_scan c6w_env3 "src" ["g"] = Except.error "no url" := by
  refine ⟨?_, ?_, ?_⟩
  · have h := C6_amended_scan.1 c6w_env "src" "d" [] (by decide)
    rw [h]
    decide
  · exact C6_amended_scan.2 c6w_env2 "src" "g" "detached" [] (by decide)
      (Or.inr (Or.inl ⟨"abc123\n", by decide, by decide⟩))
  · exact C6_amended_scan.2 c6w_env3 "src" "g" "no url" [] (by decide)
      (Or.inr (Or.inr (Or.inr
        ⟨"x\n", "x\n", "origin/master\n", by decide, by decide, by decide, by decide⟩)))

/-- C2: whenever encoding succeeds, the dict always holds `name` and
`url`; holds `branch` exactly when the branch differs from `"master"`;
omits `layers` exactly when the layer list is the default `["./"]`; holds
`layers = null` when the layers attribute is `None`; and otherwise holds
the full ordered layer list. -/
theorem C2_encode_fields (r : Repo) (j : JObj) (h : RepoEncoder.default r = some j) :
    JObj.get j "name" = some (JValue.str r.name) ∧
    JObj.get j "url" = some (JValue.str r.url) ∧
    JObj.get j "branch" =
      (if r.branch = "master" then none else some (JValue.str r.branch)) ∧
    (JObj.get j "layers" = none ↔ r.layers = some ["./"]) ∧
    (r.layers = none → JObj.get j "layers" = some JValue.null) ∧
    (∀ ls, r.layers = some ls → ls ≠ ["./"] → JObj.get j "layers" = some (JValue.arr ls)) := by
  obtain ⟨n, u, b, rev, lay⟩ := r
  simp only [RepoEncoder.default] at h
  cases lay with
  | none =>
    simp only [Option.some.injEq] at h
    subst h
    by_cases hb : b = "master" <;>
      simp [hb, JObj.get_cons, JObj.get_nil]
  | some ls =>
    rcases ls with _ | ⟨l0, rest⟩
    · simp at h
    · rcases rest with _ | ⟨l1, rest2⟩
      · by_cases hl : l0 = "./"
        · subst hl
          simp at h
          subst h
          by_cases hb : b = "master" <;>
            simp [hb, JObj.get_cons, JObj.get_nil]
        · simp [hl] at h
          subst h
          by_cases hb : b = "master" <;>
            simp [hb, hl, JObj.get_cons, JObj.get_nil]
      · have hlen : 1 < (l0 :: l1 :: rest2).length := by
          simp only [List.length_cons]
          omega
        simp [hlen] at h
        subst h
        have hne : l0 :: l1 :: rest2 ≠ ["./"] := by simp
        by_cases hb : b = "master" <;>
          simp [hb, hne, JObj.get_cons, JObj.get_nil]

/-- C2 witness: the emission rules evaluated on a repo with a non-default
branch and a two-element layer list. -/
theorem C2_witness :
    JObj.get c2w_enc "name" = some (JValue.str c2w_repo.name) ∧
    JObj.get c2w_enc "url" = some (JValue.str c2w_repo.url) ∧
    JObj.get c2w_enc "branch" =
      (if c2w_repo.branch = "master" then none else some (JValue.str c2w_repo.branch)) ∧
    (JObj.get c2w_enc "layers" = none ↔ c2w_repo.layers = some ["./"]) ∧
    (c2w_repo.layers = none → JObj.get c2w_enc "layers" = some JValue.null) ∧
    (∀ ls, c2w_repo.layers = some ls → ls ≠ ["./"] →
      JObj.get c2w_enc "layers" = some (JValue.arr ls)) :=
  C2_encode_fields c2w_repo c2w_enc (by decide)

/-- C1 counterexample: `c1x_obj` is a valid manifest object carrying an
explicit non-default revision; decoding it yields `c1x_repo`, but encoding
`c1x_repo` and decoding the result does not give `c1x_repo` back — the
encoder never emits the revision field, so the re-decoded repo has
revision `"HEAD"` in place of `"abc123"`. -/
theorem C1_counterexample :
    repo_decode c1x_obj = some c1x_repo ∧
    (RepoEncoder.default c1x_repo).bind repo_decode ≠ some c1x_repo := by
  decide

/-- C1 (amended): for every `Repo` produced by decode whose revision is
`"HEAD"` (the decode default) and whose encoding succeeds, decoding the
encoding yields that `Repo` unchanged.  The restriction to revision
`"HEAD"` is forced because the encoder never emits the revision field, and
the encoding-success hypothesis is forced because encoding fails on an
explicitly empty layer list. -/
theorem C1_decode_encode_decode (o : JObj) (r : Repo) (j : JObj)
    (_hdec : repo_decode o = some r) (hrev : r.revision = "HEAD")
    (henc : RepoEncoder.default r = some j) :
    repo_decode j = some r := by
  clear _hdec
  obtain ⟨n, u, b, rev, lay⟩ := r
  simp only at hrev
  subst hrev
  cases lay with
  | none =>
    simp only [RepoEncoder.default, Option.some.injEq] at henc
    subst henc
    by_cases hb : b = "master"
    · subst hb
      simp [repo_decode, JObj.get_cons, JObj.get_nil, JObj.getD,
        JValue.asString, JValue.asLayers]
    · simp [repo_decode, hb, JObj.get_cons, JObj.get_nil, JObj.getD,
        JValue.asString, JValue.asLayers]
  | some ls =>
    simp only [RepoEncoder.default] at henc
    rcases ls with _ | ⟨l0, rest⟩
    · simp at henc
    · rcases rest with _ | ⟨l1, rest2⟩
      · by_cases hl : l0 = "./"
        · subst hl
          simp at henc
          subst henc
          by_cases hb : b = "master"
          · subst hb
            simp [repo_decode, JObj.get_cons, JObj.get_nil, JObj.getD,
              JValue.asString, JValue.asLayers]
          · simp [repo_decode, hb, JObj.get_cons, JObj.get_nil, JObj.getD,
              JValue.asString, JValue.asLayers]
        · simp [hl] at henc
          subst henc
          by_cases hb : b = "master"
          · subst hb
            simp [repo_decode, JObj.get_cons, JObj.get_nil, JObj.getD,
              JValue.asString, JValue.asLayers]
          · simp [repo_decode, hb, JObj.get_cons, JObj.get_nil, JObj.getD,
              JValue.asString, JValue.asLayers]
      · have hlen : 1 < (l0 :: l1 :: rest2).length := by
          simp only [List.length_cons]
          omega
        simp [hlen] at henc
        subst henc
        by_cases hb : b = "master"
        · subst hb
          simp [repo_decode, JObj.get_cons, JObj.get_nil, JObj.getD,
            JValue.asString, JValue.asLayers]
        · simp [repo_decode, hb, JObj.get_cons, JObj.get_nil, JObj.getD,
            JValue.asString, JValue.asLayers]

/-- C1 witness: round trip through encode and decode of the decoded repo
of `c1w_obj`, which carries a non-default branch, explicit revision
`"HEAD"` and null layers. -/
theorem C1_witness : repo_decode c1w_enc = some c1w_repo :=
  C1_decode_encode_decode c1w_obj c1w_repo c1w_enc (by decide) (by decide) (by decide)

/-- C3: decoding requires `name` and `url` (absence is an error); absent
`branch` defaults to `"master"`, absent `revision` to `"HEAD"`, absent
`layers` to `["./"]`; a stored `null` for `layers` is preserved as "no
layers" and a stored list is preserved exactly; and decoding a manifest
array keeps its length and decodes the member at every position in
place. -/
theorem C3_decode :
    (∀ o : JObj, JObj.get o "name" = none → repo_decode o = none) ∧
    (∀ o : JObj, JObj.get o "url" = none → repo_decode o = none) ∧
    (∀ (o : JObj) (r : Repo), repo_decode o = some r →
      (JObj.get o "branch" = none → r.branch = "master") ∧
      (JObj.get o "revision" = none → r.revision = "HEAD") ∧
      (JObj.get o "layers" = none → r.layers = some ["./"]) ∧
      (JObj.get o "layers" = some JValue.null → r.layers = none) ∧
      (∀ ls, JObj.get o "layers" = some (JValue.arr ls) → r.layers = some ls)) ∧
    (∀ (os : List JObj) (rs : List Repo), repos_decode os = some rs →
      rs.length = os.length ∧
      ∀ (i : Nat) (oi : JObj) (ri : Repo), os[i]? = some oi → rs[i]? = some ri →
        repo_decode oi = some ri) := by
  refine ⟨?_, ?_, ?_, ?_⟩
  · intro o h
    simp [repo_decode, h]
  · intro o h
    cases hn : JObj.get o "name" <;> simp [repo_decode, hn, h]
  · intro o r h
    simp only [repo_decode, bind, Option.bind_eq_some, Option.pure_def,
      Option.some.injEq] at h
    obtain ⟨nameV, hname, urlV, hurl, nm, hnm, ur, hur, br, hbr, rv, hrv, ly, hly, heq⟩ := h
    subst heq
    refine ⟨?_, ?_, ?_, ?_, ?_⟩
    · intro hb
      simp_all [JObj.getD, JValue.asString]
    · intro hb
      simp_all [JObj.getD, JValue.asString]
    · intro hb
      simp_all [JObj.getD, JValue.asLayers]
    · intro hb
      simp_all [JObj.getD, JValue.asLayers]
    · intro ls hb
      simp_all [JObj.getD, JValue.asLayers]
  · intro os
    induction os with
    | nil =>
      intro rs h
      simp only [repos_decode, Option.some.injEq] at h
      subst h
      refine ⟨rfl, ?_⟩
      intro i oi ri hoi _
      simp at hoi
    | cons o os ih =>
      intro rs h
      simp only [repos_decode, bind, Option.bind_eq_some, Option.pure_def,
        Option.some.injEq] at h
      obtain ⟨r, hr, rs', hrs', heq⟩ := h
      subst heq
      obtain ⟨hlen, hidx⟩ := ih rs' hrs'
      refine ⟨by simp [hlen], ?_⟩
      intro i oi ri hoi hri
      cases i with
      | zero =>
        simp at hoi hri
        subst hoi
        subst hri
        exact hr
      | succ n =>
        simp only [List.getElem?_cons_succ] at hoi hri
        exact hidx n oi ri hoi hri

/-- C3 witness: the decode rules evaluated on concrete objects — missing
name, missing url, all defaults, explicit ordered layer list, and a
one-element manifest array. -/
theorem C3_witness :
    repo_decode [("url", JValue.str "u")] = none ∧
    repo_decode [("name", JValue.str "n")] = none ∧
    c3w_repo.branch = "master" ∧
    c3w_repo.revision = "HEAD" ∧
    c3w_repo.layers = some ["a", "b"] ∧
    repo_decode c3w_obj = some c3w_repo := by
  have h3 := C3_decode.2.2.1 c3w_obj c3w_repo (by decide)
  have h4 := C3_decode.2.2.2 [c3w_obj] [c3w_repo] (by decide)
  exact ⟨C3_decode.1 _ (by decide), C3_decode.2.1 _ (by decide),
    h3.1 (by decide), h3.2.1 (by decide), h3.2.2.2.2 ["a", "b"] (by decide),
    h4.2 0 c3w_obj c3w_repo (by decide) (by decide)⟩
